import Mathlib

/-!
Shallow embedding of the partition-descriptor and parquet table-function layer
of the databend query engine, together with the cursor string reader of the
common-io crate.  Rust machine integers (`u64`, `usize`, `u8`) are embedded as
`Nat`; fallible Rust functions returning `Result<T, ErrorCode>` become
`Except ErrorCode T`; the filesystem and configuration effects that
`ParquetTable::create` performs are passed in explicitly as an environment
value, so every definition is a pure, executable function of its inputs.
-/

/-- The engine error type (`common_exception::ErrorCode`), restricted to the
constructors used by the embedded code paths. -/
inductive ErrorCode where
  | Internal (msg : String)
  | BadArguments (msg : String)
  | StorageInsecure (msg : String)
deriving DecidableEq

/-- Modelled from the spec: `ParquetColumnMeta` is defined in the parquet
crate outside the provided sources.  Per the spec it is the per-column chunk
descriptor, "mapping from zero-based column index to per-column chunk
descriptor (offset, length, encoding/compression info, optional min/max
statistics)"; the claims only use its field-wise equality, so we carry the
offset, byte length and value count. -/
structure ParquetColumnMeta where
  offset : Nat
  length : Nat
  num_values : Nat
deriving DecidableEq

/-- `HashMap<usize, ParquetColumnMeta>` in canonical form: an association list
sorted by key with unique keys (the spec: "keys unique, one entry per
projected-capable column").  HashMap equality is key-set plus per-key value
equality, which the canonical form turns into plain list equality. -/
abbrev ColumnsMeta := List (Nat × ParquetColumnMeta)

/-- `ParquetPartInfo` (src/query/storages/parquet/src/parquet_part.rs):
the File-Column Partition descriptor. -/
structure ParquetPartInfo where
  location : String
  format_version : Nat
  nums_rows : Nat
  columns_meta : ColumnsMeta
deriving DecidableEq

/-- The type-erased `Box<dyn PartInfo>`: either the parquet variant or one of
the other concrete `PartInfo` implementations registered in the engine (fuse
block partitions and the like), abstracted as a tag plus opaque payload. -/
inductive PartInfo where
  | parquet (p : ParquetPartInfo)
  | otherVariant (tag : String) (payload : List Nat)
deriving DecidableEq

/-- `info.as_any().downcast_ref::<ParquetPartInfo>()`: succeeds exactly on the
parquet variant. -/
def PartInfo.downcast_parquet : PartInfo → Option ParquetPartInfo
  | .parquet p => some p
  | .otherVariant _ _ => none

/-- `ParquetPartInfo::equals`: downcast the other descriptor, compare
field-wise (the derived `PartialEq`) on success, `false` on a different
concrete variant. -/
def ParquetPartInfo.equals (self : ParquetPartInfo) (info : PartInfo) : Bool :=
  match info.downcast_parquet with
  | none => false
  | some other => decide (self = other)

/-- Model of std `DefaultHasher` (SipHash-1-3 behind an opaque interface,
external to the repository): a deterministic pure fold over the written
bytes, truncated to 64 bits.  std documents the result as a deterministic
function of exactly the bytes written, which is all the source relies on. -/
structure DefaultHasher where
  state : Nat
deriving DecidableEq

def DefaultHasher.new : DefaultHasher := ⟨5381⟩

def DefaultHasher.write_byte (h : DefaultHasher) (b : Nat) : DefaultHasher :=
  ⟨(h.state * 33 + b) % 2 ^ 64⟩

/-- `String::hash`: feeds the string content into the hasher. -/
def DefaultHasher.write_string (h : DefaultHasher) (s : String) : DefaultHasher :=
  s.data.foldl (fun a c => a.write_byte c.toNat) h

def DefaultHasher.finish (h : DefaultHasher) : Nat := h.state

/-- `ParquetPartInfo::hash` (the `PartInfo` identity hash): hashes only
`location` — a fresh hasher, `self.location.hash(&mut s)`, `s.finish()`. -/
def ParquetPartInfo.hash (self : ParquetPartInfo) : Nat :=
  (DefaultHasher.new.write_string self.location).finish

/-- `ParquetPartInfo::create`.  The `rows_count as usize` cast is lossless on
the 64-bit targets the engine supports; both sides are `Nat` here. -/
def ParquetPartInfo.create (location : String) (format_version : Nat)
    (rows_count : Nat) (columns_meta : ColumnsMeta) : PartInfo :=
  PartInfo.parquet
    { location := location
      format_version := format_version
      columns_meta := columns_meta
      nums_rows := rows_count }

/-- `ParquetPartInfo::from_part`: downcast or a typed internal error.  The
error text is the one in the source (it mentions `FusePartInfo`; the message
was copied from the fuse storage crate). -/
def ParquetPartInfo.from_part (info : PartInfo) : Except ErrorCode ParquetPartInfo :=
  match info.downcast_parquet with
  | some part_ref => Except.ok part_ref
  | none => Except.error (ErrorCode.Internal "Cannot downcast from PartInfo to FusePartInfo.")

/-! ### The parquet table function (table_function/table.rs) -/

/-- `common_datavalues::DataValue`, restricted to the shapes the construction
path distinguishes: string arguments versus everything else (numbers, nulls).
Paths are taken as valid UTF-8 strings (`from_utf8(..).unwrap()` in the
source). -/
inductive DataValue where
  | string (s : String)
  | uint64 (n : Nat)
  | int64 (i : Int)
  | null
deriving DecidableEq

/-- `field_info` of a parquet schema node: only the name is touched here. -/
structure FieldInfo where
  name : String
deriving DecidableEq

/-- `common_arrow::parquet::schema::types::ParquetType` (external crate): a
primitive leaf or a group, each carrying a `field_info`. -/
inductive ParquetType where
  | PrimitiveType (field_info : FieldInfo) (physical_type : Nat)
  | GroupType (field_info : FieldInfo) (fields : List ParquetType)

/-- Top-level `field_info.name` of a parquet type. -/
def ParquetType.fieldName : ParquetType → String
  | .PrimitiveType fi _ => fi.name
  | .GroupType fi _ => fi.name

structure ColumnDescriptor where
  base_type : ParquetType

/-- One column chunk of a row group, as far as schema inference reads it. -/
structure ColumnChunkMetaData where
  descriptor : ColumnDescriptor

structure RowGroupMetaData where
  columns : List ColumnChunkMetaData

/-- `common_arrow::parquet::metadata::FileMetaData`: the decoded footer, as
far as this layer reads it. -/
structure FileMetaData where
  row_groups : List RowGroupMetaData

/-- Model of Rust `str::to_lowercase` (std, external): character-wise
lowercasing; the column names exercised by this layer are ASCII. -/
def toLowercase (s : String) : String := ⟨s.data.map Char.toLower⟩

/-- The name-lowercasing step inside `infer_schema`: clone the `base_type`
and lowercase its top-level `field_info.name`, in both match arms. -/
def lowercaseTopName : ParquetType → ParquetType
  | .PrimitiveType fi phys => .PrimitiveType ⟨toLowercase fi.name⟩ phys
  | .GroupType fi fields => .GroupType ⟨toLowercase fi.name⟩ fields

/-- Modelled from the spec: the external arrow conversion
(`parquet_to_arrow_schema` of the `common_arrow` crate, an out-of-scope
collaborator: it "converts the resulting column-type list into the engine's
logical schema representation").  One field per parquet type, name preserved;
the type translation is kept abstract as the originating parquet type. -/
structure ArrowField where
  name : String
  parquet_type : ParquetType

def parquet_to_arrow_schema (fields : List ParquetType) : List ArrowField :=
  fields.map (fun pt => { name := pt.fieldName, parquet_type := pt })

/-- A field of the engine logical schema (`common_datavalues::DataField`). -/
structure DataField where
  name : String
  parquet_type : ParquetType

/-- The engine logical schema (`common_datavalues::DataSchema`). -/
structure DataSchema where
  fields : List DataField

/-- Modelled from the spec: `DataSchema::from(&ArrowSchema)` (external), the
name-preserving conversion into "the engine's logical schema
representation", one data field per arrow field. -/
def DataSchema.fromArrow (fields : List ArrowField) : DataSchema :=
  ⟨fields.map (fun f => { name := f.name, parquet_type := f.parquet_type })⟩

/-- Outcome of `File::open` followed by `parquet::read::read_metadata` on one
location: open failure, footer-decode failure, or the decoded metadata. -/
inductive MetaReadOutcome where
  | openErr (e : String)
  | decodeErr (e : String)
  | ok (meta : FileMetaData)

/-- The filesystem effects `ParquetTable::create` performs, made explicit.
`glob` models `glob::glob`: a pattern error, or the ordered per-entry results
of walking the filesystem (each entry itself may be an I/O error).
`readMeta` models opening and footer-decoding one file. -/
structure FsEnv where
  glob : String → Except String (List (Except String String))
  readMeta : String → MetaReadOutcome

/-- `read_parquet_meta`: open the file and decode the parquet footer,
wrapping either failure with the location. -/
def read_parquet_meta (env : FsEnv) (location : String) : Except ErrorCode FileMetaData :=
  match env.readMeta location with
  | .openErr e =>
      Except.error (ErrorCode.Internal
        ("Failed to open file '" ++ location ++ "': " ++ e))
  | .decodeErr e =>
      Except.error (ErrorCode.Internal
        ("Read parquet file '" ++ location ++ "''s meta error: " ++ e))
  | .ok meta => Except.ok meta

/-- `infer_schema`: read the footer, fail if there are no row groups,
otherwise one field per column descriptor of the first row group with the
top-level name lowercased, converted to the engine schema. -/
def infer_schema (env : FsEnv) (location : String) : Except ErrorCode DataSchema :=
  match read_parquet_meta env location with
  | Except.error e => Except.error e
  | Except.ok meta =>
    match meta.row_groups with
    | [] =>
        Except.error (ErrorCode.Internal
          ("No row groups found in parquet file '" ++ location ++ "'"))
    | rg0 :: _ =>
        let column_metas := rg0.columns
        let parquet_fields :=
          column_metas.map (fun col_meta => lowercaseTopName col_meta.descriptor.base_type)
        Except.ok (DataSchema.fromArrow (parquet_to_arrow_schema parquet_fields))

/-- The body of `for entry in paths`: push each `Ok` path, abort with the
wrapped glob error at the first `Err` entry. -/
def collect_glob_entries : List (Except String String) → Except ErrorCode (List String)
  | [] => Except.ok []
  | Except.error e :: _ => Except.error (ErrorCode.Internal ("glob error: " ++ e))
  | Except.ok path :: rest =>
    match collect_glob_entries rest with
    | Except.error err => Except.error err
    | Except.ok r => Except.ok (path :: r)

/-- The argument loop of `ParquetTable::create`: each argument must be a
string; each string is glob-expanded (a pattern error is wrapped as
`Internal "glob error: .."`) and the matched paths are appended, in order. -/
def expand_table_args (env : FsEnv) : List DataValue → Except ErrorCode (List String)
  | [] => Except.ok []
  | DataValue.string path :: rest =>
    (match env.glob path with
     | Except.error e => Except.error (ErrorCode.Internal ("glob error: " ++ e))
     | Except.ok entries =>
       match collect_glob_entries entries with
       | Except.error err => Except.error err
       | Except.ok files =>
         match expand_table_args env rest with
         | Except.error err => Except.error err
         | Except.ok more => Except.ok (files ++ more))
  | _ :: _ => Except.error (ErrorCode.BadArguments "read_parquet only accepts string arguments")

structure TableIdent where
  table_id : Nat
  seq : Nat
deriving DecidableEq

/-- `TableMeta`, as far as construction fills it: the inferred schema, the
engine tag, and the fixed (epoch) creation/update timestamps. -/
structure TableMeta where
  schema : DataSchema
  engine : String
  created_on : Nat
  updated_on : Nat

structure TableInfo where
  ident : TableIdent
  desc : String
  name : String
  meta : TableMeta

/-- The constructed table-function source.  The opendal operator is captured
by the root it is built with (`builder.root("/")`). -/
structure ParquetTable where
  table_args : List DataValue
  file_locations : List String
  table_info : TableInfo
  operator_root : String

/-- The `storage.allow_insecure` flag consulted from `GlobalConfig` (the
configuration subsystem is an external collaborator; following the spec
design note it is passed in explicitly). -/
structure StorageConfig where
  allow_insecure : Bool
deriving DecidableEq

/-- `TableArgs`: an optional argument list. -/
abbrev TableArgs := Option (List DataValue)

/-- `ParquetTable::create`: security gate, argument checks, glob expansion,
empty-result check, schema inference from the first resolved file, then the
immutable source value. -/
def ParquetTable.create (cfg : StorageConfig) (env : FsEnv)
    (database_name table_func_name : String) (table_id : Nat)
    (table_args : TableArgs) : Except ErrorCode ParquetTable :=
  if !cfg.allow_insecure then
    Except.error (ErrorCode.StorageInsecure
      "Should enable `allow_insecure` to use table function `read_parquet`")
  else if table_args.isNone || (table_args.getD []).isEmpty then
    Except.error (ErrorCode.BadArguments "read_parquet needs at least one argument")
  else
    let args := table_args.getD []
    match expand_table_args env args with
    | Except.error err => Except.error err
    | Except.ok file_locations =>
      if file_locations.isEmpty then
        Except.error (ErrorCode.BadArguments "No matched files found for read_parquet")
      else
        match infer_schema env (file_locations.headD "") with
        | Except.error err => Except.error err
        | Except.ok schema =>
          Except.ok
            { table_args := args
              file_locations := file_locations
              table_info :=
                { ident := ⟨table_id, 0⟩
                  desc := "'" ++ database_name ++ "'.'" ++ table_func_name ++ "'"
                  name := table_func_name
                  meta :=
                    { schema := schema
                      engine := "SystemReadParquet"
                      created_on := 0
                      updated_on := 0 } }
              operator_root := "/" }

/-! ### The quoted-string cursor reader (common/io cursor_read_string_ext.rs) -/

/-- `std::io::ErrorKind` (std, external): the kind this reader produces,
plus the neighbouring kinds a cursor read could in principle surface, so
that producing `InvalidData` is an informative fact. -/
inductive ErrorKind where
  | InvalidData
  | UnexpectedEof
  | NotFound
  | PermissionDenied
  | Other
deriving DecidableEq

/-- A `std::io::Error`: a kind plus a message. -/
structure IoError where
  kind : ErrorKind
  message : String
deriving DecidableEq

/-- Model of the Rust debug rendering used inside the error messages (std
formatting, external); the claims only inspect the error kind. -/
def renderByte (b : Nat) : String := toString b

def renderBuf (buf : List Nat) : String := toString buf

/-- Modelled from the spec: `must_ignore_byte` of `cursor_read_bytes_ext.rs`
(declared by the `use` in the source but not among the provided files) —
consume the next byte when it equals `b`, otherwise an `InvalidData` error.
The cursor is embedded as the list of bytes not yet consumed. -/
def must_ignore_byte (rem : List Nat) (b : Nat) : Except IoError (List Nat) :=
  match rem with
  | c :: rest =>
    if c = b then Except.ok rest
    else Except.error ⟨ErrorKind.InvalidData, "Expected to have char " ++ renderByte b ++ "."⟩
  | [] => Except.error ⟨ErrorKind.InvalidData, "Expected to have char " ++ renderByte b ++ "."⟩

/-- The predicate of the `keep_read` call: stop at the quote or a backslash
(byte 92). -/
def plainByte (quota b : Nat) : Bool := decide (b ≠ quota) && decide (b ≠ 92)

/-- The escape-translation `match c` block: push the unescaped byte, or the
backslash followed by the raw byte for unrecognized escapes.  110/116/114/48
are the bytes of n, t, r, 0; 39/92/34 are the quote, backslash and
double-quote bytes. -/
def escape_quoted_char (buf : List Nat) (c : Nat) : List Nat :=
  if c = 110 then buf ++ [10]
  else if c = 116 then buf ++ [9]
  else if c = 114 then buf ++ [13]
  else if c = 48 then buf ++ [0]
  else if c = 39 then buf ++ [39]
  else if c = 92 then buf ++ [92]
  else if c = 34 then buf ++ [34]
  else buf ++ [92, c]

/-- The final `Err` of `read_quoted_text`: the loop ran out of input without
meeting a closing quote. -/
def unterminated_error (quota : Nat) (buf : List Nat) : IoError :=
  ⟨ErrorKind.InvalidData,
    "Expected to have terminated string literal after quota "
      ++ String.singleton (Char.ofNat quota) ++ ", while consumed buf: " ++ renderBuf buf⟩

/-- The `Err` raised when the input ends immediately after an escape
backslash. -/
def escaped_end_error : IoError :=
  ⟨ErrorKind.InvalidData,
    "Expected to have terminated string literal after escaped char "
      ++ String.singleton (Char.ofNat 92) ++ " ."⟩

/-- The `loop` of `read_quoted_text`, with the `keep_read` span inlined to
its own byte-at-a-time loop: a plain byte (neither the quote nor a backslash)
is pushed onto `buf` and reading continues — exactly `keep_read buf (fun b ->
b != quota && b != 92)`; the closing quote ends the read; a backslash
consumes and translates the following byte, erroring when there is none; and
exhausted input falls through to the unterminated-literal error (which also
covers the unreachable `break` arm of the source, reached only when
`keep_read` stops at a byte that is neither the quote nor a backslash). -/
def read_quoted_loop (quota : Nat) (buf : List Nat) : List Nat → Except IoError (List Nat)
  | [] => Except.error (unterminated_error quota buf)
  | c :: rest =>
    if c = quota then Except.ok buf
    else if c = 92 then
      match rest with
      | [] => Except.error escaped_end_error
      | e :: rest2 => read_quoted_loop quota (escape_quoted_char buf e) rest2
    else read_quoted_loop quota (buf ++ [c]) rest

/-- `read_quoted_text`: demand the opening quote, then run the loop with an
empty output buffer (the caller passes an empty `buf`; the final buffer
content is returned). -/
def read_quoted_text (input : List Nat) (quota : Nat) : Except IoError (List Nat) :=
  match must_ignore_byte input quota with
  | Except.error e => Except.error e
  | Except.ok rem => read_quoted_loop quota [] rem

/-! ### Claims about the partition descriptor -/

/-- C1: for any two File-Column Partitions, `ParquetPartInfo::equals` returns
`true` exactly when `location`, `format_version`, `nums_rows` and
`columns_meta` are all field-wise equal; against a descriptor of a different
concrete variant it always returns `false`. -/
theorem parquet_part_equals_iff_fields (a : ParquetPartInfo) :
    (∀ b : ParquetPartInfo,
      (a.equals (PartInfo.parquet b) = true ↔
        (a.location = b.location ∧ a.format_version = b.format_version ∧
         a.nums_rows = b.nums_rows ∧ a.columns_meta = b.columns_meta))) ∧
    (∀ tag payload, a.equals (PartInfo.otherVariant tag payload) = false) := by
  refine ⟨fun b => ?_, fun tag payload => rfl⟩
  simp only [ParquetPartInfo.equals, PartInfo.downcast_parquet, decide_eq_true_eq]
  constructor
  · rintro rfl
    exact ⟨rfl, rfl, rfl, rfl⟩
  · rintro ⟨h1, h2, h3, h4⟩
    cases a
    cases b
    simp_all

/-- Witness for C1: a concrete pair of equal partitions, and a cross-variant
comparison. -/
theorem parquet_part_equals_iff_fields_witness :
    ParquetPartInfo.equals ⟨"a", 1, 2, []⟩ (PartInfo.parquet ⟨"a", 1, 2, []⟩) = true ∧
    ParquetPartInfo.equals ⟨"a", 1, 2, []⟩ (PartInfo.otherVariant "fuse" []) = false :=
  ⟨((parquet_part_equals_iff_fields ⟨"a", 1, 2, []⟩).1 ⟨"a", 1, 2, []⟩).mpr
      ⟨rfl, rfl, rfl, rfl⟩,
   (parquet_part_equals_iff_fields ⟨"a", 1, 2, []⟩).2 "fuse" []⟩

/-- C2: the identity hash of a File-Column Partition depends only on
`location` — two partitions sharing a location hash identically however their
row counts and column metadata differ — and such differing partitions are
nevertheless not `equals`.  Determinism and independence from memory address
or construction order hold by construction: the embedded `hash` is a pure
function of the `location` field alone. -/
theorem parquet_part_hash_location_only (a b : ParquetPartInfo)
    (h : a.location = b.location) :
    ParquetPartInfo.hash a = ParquetPartInfo.hash b ∧
    ((a.nums_rows ≠ b.nums_rows ∨ a.columns_meta ≠ b.columns_meta) →
      a.equals (PartInfo.parquet b) = false) := by
  refine ⟨?_, ?_⟩
  · unfold ParquetPartInfo.hash
    rw [h]
  · intro hne
    simp only [ParquetPartInfo.equals, PartInfo.downcast_parquet,
      decide_eq_false_iff_not]
    rintro rfl
    rcases hne with h1 | h1 <;> exact h1 rfl

/-- Witness for C2: same location, different row counts. -/
theorem parquet_part_hash_location_only_witness :
    ParquetPartInfo.hash ⟨"f", 0, 1, []⟩ = ParquetPartInfo.hash ⟨"f", 0, 2, []⟩ ∧
    ParquetPartInfo.equals ⟨"f", 0, 1, []⟩ (PartInfo.parquet ⟨"f", 0, 2, []⟩) = false :=
  have h := parquet_part_hash_location_only ⟨"f", 0, 1, []⟩ ⟨"f", 0, 2, []⟩ rfl
  ⟨h.1, h.2 (Or.inl (by decide))⟩

/-- C3: constructing a File-Column Partition through
`ParquetPartInfo::create` and downcasting the resulting generic descriptor
back through `ParquetPartInfo::from_part` succeeds with exactly the original
field values. -/
theorem parquet_part_create_from_part_roundtrip (location : String)
    (format_version rows_count : Nat) (columns_meta : ColumnsMeta) :
    ParquetPartInfo.from_part
        (ParquetPartInfo.create location format_version rows_count columns_meta) =
      Except.ok ⟨location, format_version, rows_count, columns_meta⟩ := rfl

/-- C4: `ParquetPartInfo::from_part` returns `Ok` exactly on descriptors
constructed as `ParquetPartInfo`, and on every other concrete variant it
returns the explicit typed internal error (an `Err` value — the embedding is
a total function, so no undefined behavior or panic is possible). -/
theorem parquet_part_from_part_ok_iff_parquet :
    (∀ p : ParquetPartInfo,
      ParquetPartInfo.from_part (PartInfo.parquet p) = Except.ok p) ∧
    (∀ tag payload,
      ParquetPartInfo.from_part (PartInfo.otherVariant tag payload) =
        Except.error (ErrorCode.Internal "Cannot downcast from PartInfo to FusePartInfo.")) :=
  ⟨fun _ => rfl, fun _ _ => rfl⟩

/-! ### Claims about `ParquetTable::create` -/

/-- C5: with `allow_insecure` unset, `ParquetTable::create` fails with the
`StorageInsecure` error whatever the remaining arguments are — the theorem
quantifies over every environment and argument list, so the check is decided
before any argument is examined. -/
theorem parquet_table_create_insecure (env : FsEnv) (db fn : String) (tid : Nat)
    (args : TableArgs) :
    ParquetTable.create ⟨false⟩ env db fn tid args =
      Except.error (ErrorCode.StorageInsecure
        "Should enable `allow_insecure` to use table function `read_parquet`") := rfl

/-- Splitting the argument loop: expanding a concatenated argument list is
expanding the prefix, then the suffix, appending the matched files. -/
theorem expand_table_args_append (env : FsEnv) (xs ys : List DataValue) :
    expand_table_args env (xs ++ ys) =
      match expand_table_args env xs with
      | Except.error e => Except.error e
      | Except.ok a =>
        match expand_table_args env ys with
        | Except.error e => Except.error e
        | Except.ok b => Except.ok (a ++ b) := by
  induction xs with
  | nil =>
    simp only [List.nil_append, expand_table_args]
    cases expand_table_args env ys <;> simp
  | cons x xs ih =>
    cases x with
    | string s =>
      simp only [List.cons_append, expand_table_args]
      cases hg : env.glob s with
      | error e => rfl
      | ok entries =>
        dsimp only
        cases hc : collect_glob_entries entries with
        | error e => rfl
        | ok files =>
          dsimp only
          rw [show xs.append ys = xs ++ ys from rfl, ih]
          cases expand_table_args env xs with
          | error e => rfl
          | ok a =>
            dsimp only
            cases expand_table_args env ys with
            | error e => rfl
            | ok b => simp
    | uint64 n => rfl
    | int64 i => rfl
    | null => rfl

/-- An argument list headed by anything that is not a string expands to the
`BadArguments` type error. -/
theorem expand_table_args_nonstring (env : FsEnv) (v : DataValue)
    (rest : List DataValue) (hv : ∀ s, v ≠ DataValue.string s) :
    expand_table_args env (v :: rest) =
      Except.error (ErrorCode.BadArguments "read_parquet only accepts string arguments") := by
  cases v with
  | string s => exact absurd rfl (hv s)
  | uint64 n => rfl
  | int64 i => rfl
  | null => rfl

/-- The entry loop aborts at the first failing match, wrapping that entry's
error text. -/
theorem collect_glob_entries_first_error (okfiles : List String) (e : String)
    (bad : List (Except String String)) :
    collect_glob_entries (okfiles.map Except.ok ++ Except.error e :: bad) =
      Except.error (ErrorCode.Internal ("glob error: " ++ e)) := by
  induction okfiles with
  | nil => rfl
  | cons f fs ih => simp [collect_glob_entries, ih]

/-- A nonempty argument list is not `isEmpty`. -/
theorem cons_append_not_isEmpty (pre : List DataValue) (v : DataValue)
    (rest : List DataValue) : (pre ++ v :: rest).isEmpty = false := by
  cases pre <;> rfl

/-- `ParquetTable::create` propagates an argument-expansion failure. -/
theorem create_of_expand_error (env : FsEnv) (db fn : String) (tid : Nat)
    (args : List DataValue) (err : ErrorCode) (hne : args.isEmpty = false)
    (h : expand_table_args env args = Except.error err) :
    ParquetTable.create ⟨true⟩ env db fn tid (some args) = Except.error err := by
  simp [ParquetTable.create, hne, h]

/-- A filesystem environment whose every glob call fails with a pattern
error. -/
def badPatternEnv : FsEnv :=
  ⟨fun _ => Except.error "Pattern syntax error", fun _ => MetaReadOutcome.ok ⟨[]⟩⟩

/-- A filesystem environment in which every pattern expands to no files. -/
def emptyGlobEnv : FsEnv :=
  ⟨fun _ => Except.ok [], fun _ => MetaReadOutcome.ok ⟨[]⟩⟩

/-- Footer metadata with one row group holding a primitive column named
`MixedCase` and a group column named `NestedGroup`. -/
def oneFileMeta : FileMetaData :=
  ⟨[⟨[⟨⟨ParquetType.PrimitiveType ⟨"MixedCase"⟩ 0⟩⟩,
      ⟨⟨ParquetType.GroupType ⟨"NestedGroup"⟩ []⟩⟩]⟩]⟩

/-- A filesystem environment resolving every pattern to the single file
`f.parquet`, whose footer is `oneFileMeta`. -/
def oneFileEnv : FsEnv :=
  ⟨fun _ => Except.ok [Except.ok "f.parquet"], fun _ => MetaReadOutcome.ok oneFileMeta⟩

/-- The table value `create` builds over `oneFileEnv`. -/
def oneFileTable : ParquetTable :=
  { table_args := [DataValue.string "p"]
    file_locations := ["f.parquet"]
    table_info :=
      { ident := ⟨7, 0⟩
        desc := "'db'.'fn'"
        name := "fn"
        meta :=
          { schema := ⟨[⟨"mixedcase", ParquetType.PrimitiveType ⟨"mixedcase"⟩ 0⟩,
                        ⟨"nestedgroup", ParquetType.GroupType ⟨"nestedgroup"⟩ []⟩]⟩
            engine := "SystemReadParquet"
            created_on := 0
            updated_on := 0 } }
    operator_root := "/" }

/-- C6 counterexample: the argument list `('[', 3)` contains a non-string
argument, yet with the malformed first pattern `create` fails with the
wrapped `Internal` glob error — not with `BadArguments`.  The unqualified
"fails with a BadArguments error when any argument is not a string" is
therefore false on the code. -/
theorem parquet_table_create_nonstring_preempted :
    ParquetTable.create ⟨true⟩ badPatternEnv "db" "read_parquet" 0
        (some [DataValue.string "[", DataValue.uint64 3]) =
      Except.error (ErrorCode.Internal "glob error: Pattern syntax error") ∧
    ParquetTable.create ⟨true⟩ badPatternEnv "db" "read_parquet" 0
        (some [DataValue.string "[", DataValue.uint64 3]) ≠
      Except.error (ErrorCode.BadArguments "read_parquet only accepts string arguments") := by
  have hc : ParquetTable.create ⟨true⟩ badPatternEnv "db" "read_parquet" 0
      (some [DataValue.string "[", DataValue.uint64 3]) =
      Except.error (ErrorCode.Internal "glob error: Pattern syntax error") := rfl
  refine ⟨hc, ?_⟩
  rw [hc]
  intro h
  injection h with h2
  exact ErrorCode.noConfusion h2

/-- C6 (amended): with the security flag set, `ParquetTable::create` fails
with `BadArguments "read_parquet needs at least one argument"` when the
argument list is absent or empty; with `BadArguments "read_parquet only
accepts string arguments"` when an argument that is reached is not a string
(every earlier argument being a string whose expansion succeeded — an earlier
argument's failing expansion surfaces its own glob error instead); with
`BadArguments "No matched files found for read_parquet"` when the argument
list is nonempty and its full expansion yields zero files; the three messages
are pairwise distinct; and a successful construction never carries an empty
file list. -/
theorem parquet_table_create_badarguments (env : FsEnv) (db fn : String) (tid : Nat) :
    (ParquetTable.create ⟨true⟩ env db fn tid none =
        Except.error (ErrorCode.BadArguments "read_parquet needs at least one argument")) ∧
    (ParquetTable.create ⟨true⟩ env db fn tid (some []) =
        Except.error (ErrorCode.BadArguments "read_parquet needs at least one argument")) ∧
    (∀ pre files v rest, expand_table_args env pre = Except.ok files →
      (∀ s, v ≠ DataValue.string s) →
      ParquetTable.create ⟨true⟩ env db fn tid (some (pre ++ v :: rest)) =
        Except.error (ErrorCode.BadArguments "read_parquet only accepts string arguments")) ∧
    (∀ args, args ≠ [] → expand_table_args env args = Except.ok [] →
      ParquetTable.create ⟨true⟩ env db fn tid (some args) =
        Except.error (ErrorCode.BadArguments "No matched files found for read_parquet")) ∧
    (∀ args t, ParquetTable.create ⟨true⟩ env db fn tid (some args) = Except.ok t →
      t.file_locations ≠ []) := by
  refine ⟨rfl, rfl, ?_, ?_, ?_⟩
  · intro pre files v rest hpre hv
    apply create_of_expand_error env db fn tid _ _ (cons_append_not_isEmpty pre v rest)
    rw [expand_table_args_append, hpre, expand_table_args_nonstring env v rest hv]
  · intro args hargs hexp
    have hne : args.isEmpty = false := by
      cases args with
      | nil => exact absurd rfl hargs
      | cons a l => rfl
    simp [ParquetTable.create, hne, hexp]
  · intro args t h
    cases hne : args.isEmpty with
    | true =>
      rw [List.isEmpty_iff.mp hne] at h
      exact absurd h (by simp [ParquetTable.create])
    | false =>
      cases hexp : expand_table_args env args with
      | error e =>
        rw [create_of_expand_error env db fn tid args e hne hexp] at h
        cases h
      | ok fl =>
        simp only [ParquetTable.create, Bool.not_true, Bool.false_eq_true, if_false,
          Option.isNone_some, Option.getD_some, hne, Bool.or_self, hexp] at h
        cases hfl : fl.isEmpty with
        | true => rw [hfl] at h; simp at h
        | false =>
          rw [hfl] at h
          simp at h
          cases hi : infer_schema env (fl.head?.getD "") with
          | error e => rw [hi] at h; cases h
          | ok schema =>
            rw [hi] at h
            injection h with h2
            subst h2
            intro hnil
            simp_all

/-- Witness for C6 (amended): each failure arm at a concrete environment and
argument list, and a successful construction whose file list is nonempty. -/
theorem parquet_table_create_badarguments_witness :
    ParquetTable.create ⟨true⟩ emptyGlobEnv "db" "fn" 0 none =
      Except.error (ErrorCode.BadArguments "read_parquet needs at least one argument") ∧
    ParquetTable.create ⟨true⟩ emptyGlobEnv "db" "fn" 0 (some [DataValue.uint64 3]) =
      Except.error (ErrorCode.BadArguments "read_parquet only accepts string arguments") ∧
    ParquetTable.create ⟨true⟩ emptyGlobEnv "db" "fn" 0 (some [DataValue.string "x"]) =
      Except.error (ErrorCode.BadArguments "No matched files found for read_parquet") ∧
    oneFileTable.file_locations ≠ [] := by
  refine ⟨(parquet_table_create_badarguments emptyGlobEnv "db" "fn" 0).1, ?_, ?_, ?_⟩
  · exact (parquet_table_create_badarguments emptyGlobEnv "db" "fn" 0).2.2.1
      [] [] (DataValue.uint64 3) [] rfl (fun s h => DataValue.noConfusion h)
  · exact (parquet_table_create_badarguments emptyGlobEnv "db" "fn" 0).2.2.2.1
      [DataValue.string "x"] (List.cons_ne_nil _ _) rfl
  · exact (parquet_table_create_badarguments oneFileEnv "db" "fn" 7).2.2.2.2
      [DataValue.string "p"] oneFileTable rfl

/-- C7: when the footer decodes to zero row groups, `infer_schema` fails —
no schema is produced — with the zero-row-group error (the spec's `EmptyFile`
failure kind, realized as an `Internal` error whose message states "No row
groups found" and carries the file location verbatim). -/
theorem infer_schema_no_row_groups (env : FsEnv) (location : String)
    (meta : FileMetaData) (hm : env.readMeta location = MetaReadOutcome.ok meta)
    (hrg : meta.row_groups = []) :
    infer_schema env location =
      Except.error (ErrorCode.Internal
        ("No row groups found in parquet file '" ++ location ++ "'")) := by
  simp [infer_schema, read_parquet_meta, hm, hrg]

/-- Witness for C7: a concrete environment whose footer has no row groups. -/
theorem infer_schema_no_row_groups_witness :
    infer_schema emptyGlobEnv "e.parquet" =
      Except.error (ErrorCode.Internal
        ("No row groups found in parquet file '" ++ "e.parquet" ++ "'")) :=
  infer_schema_no_row_groups emptyGlobEnv "e.parquet" ⟨[]⟩ rfl rfl

/-- The lowercasing step rewrites exactly the top-level name, for primitive
and group types alike. -/
theorem fieldName_lowercaseTopName (pt : ParquetType) :
    (lowercaseTopName pt).fieldName = toLowercase pt.fieldName := by
  cases pt <;> rfl

/-- C8: on a footer with at least one row group, `infer_schema` succeeds and
derives exactly one schema field per column descriptor of the first row
group, each field named by the lowercased form of the column's name — for
primitive and group parquet types alike. -/
theorem infer_schema_one_field_per_column (env : FsEnv) (location : String)
    (meta : FileMetaData) (rg : RowGroupMetaData) (rest : List RowGroupMetaData)
    (hm : env.readMeta location = MetaReadOutcome.ok meta)
    (hrg : meta.row_groups = rg :: rest) :
    ((infer_schema env location).toOption.map fun s => s.fields.map DataField.name) =
        some (rg.columns.map fun c => toLowercase c.descriptor.base_type.fieldName) ∧
    ((infer_schema env location).toOption.map fun s => s.fields.length) =
        some rg.columns.length := by
  have h : infer_schema env location =
      Except.ok (DataSchema.fromArrow (parquet_to_arrow_schema
        (rg.columns.map fun c => lowercaseTopName c.descriptor.base_type))) := by
    simp [infer_schema, read_parquet_meta, hm, hrg]
  rw [h]
  constructor
  · simp [DataSchema.fromArrow, parquet_to_arrow_schema, Except.toOption,
      List.map_map, Function.comp, fieldName_lowercaseTopName]
  · simp [DataSchema.fromArrow, parquet_to_arrow_schema, Except.toOption]

/-- Witness for C8: the `MixedCase` and `NestedGroup` columns of the concrete
footer yield exactly the fields `mixedcase` and `nestedgroup`. -/
theorem infer_schema_one_field_per_column_witness :
    ((infer_schema oneFileEnv "f.parquet").toOption.map fun s => s.fields.map DataField.name) =
        some ["mixedcase", "nestedgroup"] ∧
    ((infer_schema oneFileEnv "f.parquet").toOption.map fun s => s.fields.length) =
        some 2 := by
  have h := infer_schema_one_field_per_column oneFileEnv "f.parquet" oneFileMeta
    ⟨[⟨⟨ParquetType.PrimitiveType ⟨"MixedCase"⟩ 0⟩⟩,
      ⟨⟨ParquetType.GroupType ⟨"NestedGroup"⟩ []⟩⟩]⟩ [] rfl rfl
  exact ⟨h.1.trans (by decide), h.2.trans (by decide)⟩

/-- C9: a string argument whose glob expansion fails — a malformed pattern,
or an I/O error met at some entry while walking the filesystem — aborts
`create` with the wrapped `Internal` error carrying that failure's text (the
first failing entry is surfaced individually, after any number of successful
matches); the result being an `Err`, no partially accumulated file list
reaches construction. -/
theorem parquet_table_create_glob_failure (env : FsEnv) (db fn : String)
    (tid : Nat) (pre : List DataValue) (files : List String) (s : String)
    (rest : List DataValue)
    (hpre : expand_table_args env pre = Except.ok files) :
    (∀ e, env.glob s = Except.error e →
      ParquetTable.create ⟨true⟩ env db fn tid
          (some (pre ++ DataValue.string s :: rest)) =
        Except.error (ErrorCode.Internal ("glob error: " ++ e))) ∧
    (∀ (okfiles : List String) (e : String) (bad : List (Except String String)),
      env.glob s = Except.ok (okfiles.map Except.ok ++ Except.error e :: bad) →
      ParquetTable.create ⟨true⟩ env db fn tid
          (some (pre ++ DataValue.string s :: rest)) =
        Except.error (ErrorCode.Internal ("glob error: " ++ e))) := by
  constructor
  · intro e hg
    apply create_of_expand_error env db fn tid _ _
      (cons_append_not_isEmpty pre (DataValue.string s) rest)
    rw [expand_table_args_append, hpre]
    simp [expand_table_args, hg]
  · intro okfiles e bad hg
    apply create_of_expand_error env db fn tid _ _
      (cons_append_not_isEmpty pre (DataValue.string s) rest)
    rw [expand_table_args_append, hpre]
    simp [expand_table_args, hg, collect_glob_entries_first_error]

/-- Environment for the C9 witness: the pattern `bad[` fails outright, every
other pattern walks into an entry error after one successful match. -/
def mixedGlobEnv : FsEnv :=
  ⟨fun p =>
     if p = "bad[" then Except.error "Pattern syntax error"
     else Except.ok [Except.ok "x.parquet", Except.error "walk error"],
   fun _ => MetaReadOutcome.ok ⟨[]⟩⟩

/-- Witness for C9: both failure shapes at concrete patterns. -/
theorem parquet_table_create_glob_failure_witness :
    ParquetTable.create ⟨true⟩ mixedGlobEnv "db" "fn" 0
        (some [DataValue.string "bad["]) =
      Except.error (ErrorCode.Internal ("glob error: " ++ "Pattern syntax error")) ∧
    ParquetTable.create ⟨true⟩ mixedGlobEnv "db" "fn" 0
        (some [DataValue.string "ok"]) =
      Except.error (ErrorCode.Internal ("glob error: " ++ "walk error")) := by
  constructor
  · exact (parquet_table_create_glob_failure mixedGlobEnv "db" "fn" 0
      [] [] "bad[" [] rfl).1 "Pattern syntax error" rfl
  · exact (parquet_table_create_glob_failure mixedGlobEnv "db" "fn" 0
      [] [] "ok" [] rfl).2 ["x.parquet"] "walk error" [] rfl

/-! ### Claims about the quoted-string reader -/

/-- A successful loop run reaches a closing quote among the remaining
bytes (strong induction on the remaining length). -/
theorem read_quoted_loop_ok_mem_aux (quota : Nat) :
    ∀ n (buf rem : List Nat), rem.length ≤ n → ∀ r,
      read_quoted_loop quota buf rem = Except.ok r → quota ∈ rem := by
  intro n
  induction n with
  | zero =>
    intro buf rem hlen r h
    rw [List.length_eq_zero.mp (Nat.le_zero.mp hlen)] at h
    rw [read_quoted_loop.eq_def] at h
    cases h
  | succ n ih =>
    intro buf rem hlen r h
    cases rem with
    | nil =>
      rw [read_quoted_loop.eq_def] at h
      cases h
    | cons c rest =>
      rw [read_quoted_loop.eq_def] at h
      dsimp only at h
      by_cases hc : c = quota
      · subst hc
        exact List.mem_cons_self _ _
      · rw [if_neg hc] at h
        by_cases hb : c = 92
        · rw [if_pos hb] at h
          cases rest with
          | nil => cases h
          | cons e rest2 =>
            dsimp only at h
            have hlen2 : rest2.length ≤ n := by
              simp at hlen
              omega
            exact List.mem_cons_of_mem _ (List.mem_cons_of_mem _
              (ih _ rest2 hlen2 r h))
        · rw [if_neg hb] at h
          have hlen2 : rest.length ≤ n := by
            simp at hlen
            omega
          exact List.mem_cons_of_mem _ (ih _ rest hlen2 r h)

/-- Every error the loop produces has kind `InvalidData`. -/
theorem read_quoted_loop_err_kind_aux (quota : Nat) :
    ∀ n (buf rem : List Nat), rem.length ≤ n → ∀ e,
      read_quoted_loop quota buf rem = Except.error e →
      e.kind = ErrorKind.InvalidData := by
  intro n
  induction n with
  | zero =>
    intro buf rem hlen e h
    rw [List.length_eq_zero.mp (Nat.le_zero.mp hlen)] at h
    rw [read_quoted_loop.eq_def] at h
    injection h with h2
    rw [← h2]
    rfl
  | succ n ih =>
    intro buf rem hlen e h
    cases rem with
    | nil =>
      rw [read_quoted_loop.eq_def] at h
      injection h with h2
      rw [← h2]
      rfl
    | cons c rest =>
      rw [read_quoted_loop.eq_def] at h
      dsimp only at h
      by_cases hc : c = quota
      · rw [if_pos hc] at h
        cases h
      · rw [if_neg hc] at h
        by_cases hb : c = 92
        · rw [if_pos hb] at h
          cases rest with
          | nil =>
            injection h with h2
            rw [← h2]
            rfl
          | cons e2 rest2 =>
            dsimp only at h
            have hlen2 : rest2.length ≤ n := by
              simp at hlen
              omega
            exact ih _ rest2 hlen2 e h
        · rw [if_neg hb] at h
          have hlen2 : rest.length ≤ n := by
            simp at hlen
            omega
          exact ih _ rest hlen2 e h

/-- C10: `read_quoted_text` returns `Ok` only when the input begins with the
requested quote byte and a closing quote byte is actually reached among the
following bytes; every failing input — exhausted input, a missing opening
quote, and in particular input ending immediately after an escape
backslash — yields an `InvalidData` error.  The embedding is a total
function over arbitrary byte lists, so no input can panic or read out of
bounds. -/
theorem read_quoted_text_safety (input : List Nat) (quota : Nat) :
    (∀ r, read_quoted_text input quota = Except.ok r →
      input.head? = some quota ∧ quota ∈ input.drop 1) ∧
    (∀ e, read_quoted_text input quota = Except.error e →
      e.kind = ErrorKind.InvalidData) := by
  constructor
  · intro r h
    cases input with
    | nil =>
      simp only [read_quoted_text, must_ignore_byte] at h
      cases h
    | cons c rest =>
      simp only [read_quoted_text, must_ignore_byte] at h
      by_cases hc : c = quota
      · rw [if_pos hc] at h
        dsimp only at h
        refine ⟨by simp [hc], ?_⟩
        simpa using read_quoted_loop_ok_mem_aux quota rest.length [] rest
          le_rfl r h
      · rw [if_neg hc] at h
        cases h
  · intro e h
    cases input with
    | nil =>
      simp only [read_quoted_text, must_ignore_byte] at h
      injection h with h2
      rw [← h2]
    | cons c rest =>
      simp only [read_quoted_text, must_ignore_byte] at h
      by_cases hc : c = quota
      · rw [if_pos hc] at h
        dsimp only at h
        exact read_quoted_loop_err_kind_aux quota rest.length [] rest le_rfl e h
      · rw [if_neg hc] at h
        injection h with h2
        rw [← h2]

/-- Witness for C10: a terminated literal, and an input ending right after
the escape backslash. -/
theorem read_quoted_text_safety_witness :
    ([39, 97, 39] : List Nat).head? = some 39 ∧
    (39 : Nat) ∈ ([39, 97, 39] : List Nat).drop 1 ∧
    escaped_end_error.kind = ErrorKind.InvalidData :=
  ⟨((read_quoted_text_safety [39, 97, 39] 39).1 [97] rfl).1,
   ((read_quoted_text_safety [39, 97, 39] 39).1 [97] rfl).2,
   (read_quoted_text_safety [39, 92] 39).2 escaped_end_error rfl⟩
